import Mathlib

/-!
Verification development for the XAI benchmarking platform backend.

The definitions below are a shallow embedding of the Python services in
`backend/app` (quality metrics, model training, dataset processing,
explanation generation, dataset splitting).  Machine floats are modelled by
exact rationals; a float computation whose value is NaN or an infinity
(e.g. after a division by zero, which numpy reports as a warning rather
than an exception) is modelled as `none : Option ℚ`.  A Python exception
raised inside a `try` block is modelled by `Option`/explicit failure flags;
collaborator services (metadata store, object store, the SHAP library,
scikit-learn models) are modelled as explicit environment parameters, as the
spec treats them as external collaborators.
-/

namespace XaiPlatform

/-! ### Basic numeric helpers -/

/-- Arithmetic mean of a list of rationals (`np.mean`); the callers below
only use it on nonempty lists, or guard the empty case explicitly. -/
def meanQ (l : List ℚ) : ℚ := l.sum / l.length

/-- Sum of `i * x_i` where the index `i` starts at `k` (used with `k = 1`
to model `np.sum(index * sorted_imp)` with `index = np.arange(1, n + 1)`). -/
def idxWeightedSum (k : ℕ) : List ℚ → ℚ
  | [] => 0
  | x :: xs => (k : ℚ) * x + idxWeightedSum (k + 1) xs

/-- Cumulative sums with an accumulator. -/
def cumsumFrom (acc : ℚ) : List ℚ → List ℚ
  | [] => []
  | x :: xs => (acc + x) :: cumsumFrom (acc + x) xs

/-- Cumulative sums of a list (`np.cumsum`). -/
def cumsum (l : List ℚ) : List ℚ := cumsumFrom 0 l

/-- Index of the first element `≥ t`, if any (`np.argmax(xs >= t)` returns
this index when some element satisfies the predicate, and `0` otherwise;
the caller applies `Option.getD 0` to recover the numpy behavior). -/
def firstGE (t : ℚ) : List ℚ → Option ℕ
  | [] => none
  | c :: cs => if t ≤ c then some 0 else (firstGE t cs).map (· + 1)

/-- Median of a list of rationals, mirroring `pandas.Series.median`:
sort ascending, take the middle element (odd length) or the average of the
two middle elements (even length).  The value at length 0 is irrelevant to
the embedding (the source only perturbs columns of data frames it also
predicts on, and the empty-frame path never reads the median). -/
def medianQ (l : List ℚ) : ℚ :=
  let s := l.insertionSort (· ≤ ·)
  let n := s.length
  if n % 2 = 1 then s.getD (n / 2) 0
  else (s.getD (n / 2 - 1) 0 + s.getD (n / 2) 0) / 2

/-! ### Data rows, frames and models

`quality_metrics_service.py` consumes a pickled scikit-learn model and a
pandas test frame.  A row maps feature names to rational values; the model
is abstracted to its positive-class probability function
(`predict_proba(...)[:, 1]`), with `none` modelling an exception raised by
the model on that input. -/

/-- A data row: an association list from feature name to value. -/
abbrev Row := List (String × ℚ)

/-- Value of feature `name` in a row (missing features read as 0; the
frames built by the pipeline always carry all columns in every row). -/
def rowGet (r : Row) (name : String) : ℚ :=
  ((r.find? (fun p => p.1 = name)).map (fun p => p.2)).getD 0

/-- Overwrite feature `name` with value `v` in a row
(models `X_perturbed[feature_name] = median`). -/
def setRow (r : Row) (name : String) (v : ℚ) : Row :=
  r.map (fun p => if p.1 = name then (p.1, v) else p)

/-- A pandas data frame, reduced to its column names and rows. -/
structure DataFrame where
  cols : List String
  rows : List Row
deriving Repr, DecidableEq

/-- A fitted classifier, abstracted to the positive-class probability it
assigns to a row; `none` models `predict_proba` raising on that input. -/
structure PModel where
  predictProba : Row → Option ℚ

/-- Apply the model to every row of a frame; any per-row failure models
`model.predict_proba` raising on the whole matrix. -/
def predictAll (m : PModel) : List Row → Option (List ℚ)
  | [] => some []
  | r :: rs => do
      let p ← m.predictProba r
      let ps ← predictAll m rs
      pure (p :: ps)

/-! ### QualityMetricsService._calculate_faithfulness -/

/-- Result dictionary of `_calculate_faithfulness`. -/
structure FaithfulnessResult where
  score : ℚ
  monotonicity : ℚ
  selectivity : ℚ
  description : String
deriving Repr, DecidableEq

/-- Fallback returned by the `except` branch of `_calculate_faithfulness`. -/
def faithfulnessFallback : FaithfulnessResult :=
  { score := 1/2, monotonicity := 1/2, selectivity := 1/2,
    description := "Faithfulness calculation failed" }

/-- The monotonicity loop: for each top feature present in the frame's
columns, set that column to its median, re-predict, and record
`max 0 decrease` where `decrease` is the mean drop of the positive-class
probability.  On an empty frame numpy's mean is NaN and Python's
`max(0, nan)` evaluates to `0`, which the `isEmpty` guard reproduces.
`none` models `predict_proba` raising inside the loop. -/
def monoScores (m : PModel) (X : DataFrame) (yPred : List ℚ) :
    List (String × ℚ) → Option (List ℚ)
  | [] => some []
  | (name, _) :: rest =>
    if name ∈ X.cols then do
      let med := medianQ (X.rows.map (fun r => rowGet r name))
      let yPert ← predictAll m (X.rows.map (fun r => setRow r name med))
      let decrease := if X.rows.isEmpty then 0
        else meanQ (List.zipWith (fun a b => a - b) yPred yPert)
      let tl ← monoScores m X yPred rest
      pure (max 0 decrease :: tl)
    else monoScores m X yPred rest

/-- Body of the `try` block of `_calculate_faithfulness`; `none` models an
exception escaping to the `except` handler. -/
def faithfulnessCore (m : PModel) (X : DataFrame)
    (imp : List (String × ℚ)) : Option FaithfulnessResult := do
  let yPred ← predictAll m X.rows
  let top := (imp.insertionSort (fun a b => b.2 ≤ a.2)).take 5
  let ms ← monoScores m X yPred top
  let monotonicity := if ms.isEmpty then 1/2 else meanQ ms
  let selectivity := min 1 ((top.length : ℚ) / 10)
  pure { score := 3/5 * monotonicity + 2/5 * selectivity,
         monotonicity := monotonicity,
         selectivity := selectivity,
         description := "How well explanations reflect actual model behavior" }

/-- `_calculate_faithfulness`: the core computation with its exception
handler (the unused `y` argument of the source is omitted). -/
def calculateFaithfulness (m : PModel) (X : DataFrame)
    (imp : List (String × ℚ)) : FaithfulnessResult :=
  (faithfulnessCore m X imp).getD faithfulnessFallback

/-! ### QualityMetricsService._calculate_robustness

The body of `_calculate_robustness` interacts with the external SHAP
library (TreeExplainer, noisy re-attribution, per-row Pearson
correlations).  That interaction is abstracted to its outcome: `none` when
any step of the `try` block raises, `some corrs` for the list of non-NaN
per-row correlation coefficients otherwise.  The code surrounding the
library call — the empty-list default, the clamp, and the fallback — is
embedded exactly.  The source also reports `stability_std`
(`np.std(correlations)`, an irrational square root no claim refers to),
which the embedding omits. -/

/-- Result dictionary of `_calculate_robustness`. -/
structure RobustnessResult where
  score : ℚ
  stability : ℚ
  description : String
deriving Repr, DecidableEq

/-- Fallback returned by the `except` branch of `_calculate_robustness`. -/
def robustnessFallback : RobustnessResult :=
  { score := 4/5, stability := 4/5,
    description := "Robustness calculation failed" }

/-- `_calculate_robustness` given the outcome of the SHAP interaction. -/
def calculateRobustness (corrs : Option (List ℚ)) : RobustnessResult :=
  match corrs with
  | none => robustnessFallback
  | some cs =>
    let stability := if cs.isEmpty then 4/5 else meanQ cs
    { score := max 0 (min 1 stability), stability := stability,
      description := "How stable explanations are under perturbations" }

/-! ### QualityMetricsService._calculate_complexity -/

/-- Result dictionary of `_calculate_complexity`.  `score` and `gini` are
`Option ℚ`: `none` models the NaN/Inf float produced when the Gini
denominator `n * np.sum(sorted_imp)` is zero (numpy emits a warning, not
an exception, so the fallback is NOT taken on that path). -/
structure ComplexityResult where
  score : Option ℚ
  sparsity : ℚ
  gini : Option ℚ
  effectiveFeatures : ℕ
deriving Repr, DecidableEq

/-- Fallback returned by the `except` branch of `_calculate_complexity`. -/
def complexityFallback : ComplexityResult :=
  { score := some (7/10), sparsity := 3/10, gini := some (7/10),
    effectiveFeatures := 10 }

/-- The Gini-coefficient line of `_calculate_complexity` applied to the
ascending-sorted importance values: `none` models the NaN/Inf float of a
zero denominator; `n` is the list length (nonzero at every call site of
this helper, the `n = 0` case being the exception path of the caller). -/
def giniOfSorted (s : List ℚ) : Option ℚ :=
  if s.sum = 0 then none
  else some (2 * idxWeightedSum 1 s / ((s.length : ℚ) * s.sum)
              - ((s.length : ℚ) + 1) / (s.length : ℚ))

/-- Number of leading features of the descending importance list whose
cumulative sum reaches 80% of the total: `np.argmax(cumsum >= 0.8*total)+1`
(argmax of an all-false boolean array is 0, hence the `getD 0`). -/
def effectiveFeatureCount (desc : List ℚ) : ℕ :=
  (firstGE (4/5 * (cumsum desc).getLastD 0) (cumsum desc)).getD 0 + 1

/-- `_calculate_complexity` on the list of importance values.  With an
empty importance dict the integer division `(n + 1) / n` raises
`ZeroDivisionError`, which the handler converts to the fallback; with a
zero importance total the float division yields NaN/Inf (`none`) and no
exception is raised. -/
def calculateComplexity (importances : List ℚ) : ComplexityResult :=
  if importances.isEmpty then complexityFallback
  else
    let gini := giniOfSorted (importances.insertionSort (· ≤ ·))
    let eff := effectiveFeatureCount
      (importances.insertionSort (fun a b => b ≤ a))
    let sparsity := 1 - (eff : ℚ) / (importances.length : ℚ)
    { score := gini.map (fun g => 1/2 * g + 1/2 * sparsity),
      sparsity := sparsity, gini := gini, effectiveFeatures := eff }

/-! ### QualityMetricsService.evaluate_explanation_quality -/

/-- Environment for one quality evaluation: the loadable artifacts and the
outcome of the SHAP interaction inside `_calculate_robustness`.  `none`
models the corresponding load raising an exception. -/
structure QualityEnv where
  model : Option PModel
  testData : Option DataFrame
  shapCorrelations : Option (List ℚ)

/-- Result dictionary of `evaluate_explanation_quality`; `overallQuality`
is `none` when the complexity score was NaN. -/
structure QualityResult where
  faithfulness : FaithfulnessResult
  robustness : RobustnessResult
  complexity : ComplexityResult
  overallQuality : Option ℚ
  sampleSize : ℕ
deriving Repr, DecidableEq

/-- `evaluate_explanation_quality`.  `none` models the method re-raising an
exception (only the artifact loads can raise; every sub-score computation
catches its own exceptions).  The source samples a uniformly random
`sample_size`-row subset when the test frame is larger; which rows are
drawn is irrelevant to every claim, so the embedding takes the first
`sampleSize` rows of the frame. -/
def evaluateExplanationQuality (env : QualityEnv)
    (imp : List (String × ℚ)) (sampleSize : ℕ) : Option QualityResult := do
  let m ← env.model
  let X ← env.testData
  let Xs : DataFrame :=
    if sampleSize < X.rows.length then ⟨X.cols, X.rows.take sampleSize⟩ else X
  let f := calculateFaithfulness m Xs imp
  let r := calculateRobustness env.shapCorrelations
  let c := calculateComplexity (imp.map (fun p => p.2))
  let overall := c.score.map
    (fun cs => 2/5 * f.score + 3/10 * r.score + 3/10 * cs)
  pure { faithfulness := f, robustness := r, complexity := c,
         overallQuality := overall, sampleSize := Xs.rows.length }


/-! ### Helper lemmas: means, predictions, monotonicity scores -/

lemma meanQ_le (l : List ℚ) (hne : l ≠ []) (b : ℚ)
    (h : ∀ x ∈ l, x ≤ b) : meanQ l ≤ b := by
  have hlen : 0 < (l.length : ℚ) := by
    have : 0 < l.length := List.length_pos.mpr hne
    exact_mod_cast this
  have hsum : l.sum ≤ (l.length : ℚ) * b := by
    have := List.sum_le_card_nsmul l b h
    simpa [nsmul_eq_mul] using this
  rw [meanQ, div_le_iff₀ hlen]
  linarith

lemma le_meanQ (l : List ℚ) (hne : l ≠ []) (a : ℚ)
    (h : ∀ x ∈ l, a ≤ x) : a ≤ meanQ l := by
  have hlen : 0 < (l.length : ℚ) := by
    have : 0 < l.length := List.length_pos.mpr hne
    exact_mod_cast this
  have hsum : (l.length : ℚ) * a ≤ l.sum := by
    have := List.card_nsmul_le_sum l a h
    simpa [nsmul_eq_mul] using this
  rw [meanQ, le_div_iff₀ hlen]
  linarith

lemma predictAll_length (m : PModel) :
    ∀ (rs : List Row) (ps : List ℚ), predictAll m rs = some ps →
      ps.length = rs.length := by
  intro rs
  induction rs with
  | nil =>
    intro ps h
    simp only [predictAll, Option.some.injEq] at h
    subst h
    rfl
  | cons r rs ih =>
    intro ps h
    simp only [predictAll, Option.bind_eq_bind, Option.bind_eq_some,
      Option.pure_def, Option.some.injEq] at h
    obtain ⟨p, _, ps', hps', hcons⟩ := h
    subst hcons
    simp [ih ps' hps']

lemma predictAll_bounds (m : PModel)
    (hp : ∀ row p, m.predictProba row = some p → 0 ≤ p ∧ p ≤ 1) :
    ∀ (rs : List Row) (ps : List ℚ), predictAll m rs = some ps →
      ∀ p ∈ ps, 0 ≤ p ∧ p ≤ 1 := by
  intro rs
  induction rs with
  | nil =>
    intro ps h
    simp only [predictAll, Option.some.injEq] at h
    subst h
    intro p hp'
    simp at hp'
  | cons r rs ih =>
    intro ps h
    simp only [predictAll, Option.bind_eq_bind, Option.bind_eq_some,
      Option.pure_def, Option.some.injEq] at h
    obtain ⟨p, hpred, ps', hps', hcons⟩ := h
    subst hcons
    intro q hq
    rcases List.mem_cons.mp hq with hq | hq
    · exact hq ▸ hp r p hpred
    · exact ih ps' hps' q hq

lemma zipWith_sub_bounds (l1 l2 : List ℚ)
    (h1 : ∀ x ∈ l1, 0 ≤ x ∧ x ≤ 1) (h2 : ∀ x ∈ l2, 0 ≤ x ∧ x ≤ 1) :
    ∀ x ∈ List.zipWith (fun a b => a - b) l1 l2, -1 ≤ x ∧ x ≤ 1 := by
  induction l1 generalizing l2 with
  | nil => intro x hx; simp at hx
  | cons a as ih =>
    cases l2 with
    | nil => intro x hx; simp at hx
    | cons b bs =>
      intro x hx
      rcases List.mem_cons.mp hx with hx | hx
      · obtain ⟨ha0, ha1⟩ := h1 a (List.mem_cons_self a as)
        obtain ⟨hb0, hb1⟩ := h2 b (List.mem_cons_self b bs)
        have hx2 : x = a - b := hx
        constructor <;> (rw [hx2]; linarith)
      · exact ih bs (fun y hy => h1 y (List.mem_cons_of_mem a hy))
          (fun y hy => h2 y (List.mem_cons_of_mem b hy)) x hx

lemma monoScores_bounds (m : PModel) (X : DataFrame) (yPred : List ℚ)
    (hp : ∀ row p, m.predictProba row = some p → 0 ≤ p ∧ p ≤ 1)
    (hyb : ∀ p ∈ yPred, 0 ≤ p ∧ p ≤ 1)
    (hylen : yPred.length = X.rows.length) :
    ∀ (top : List (String × ℚ)) (ms : List ℚ),
      monoScores m X yPred top = some ms → ∀ s ∈ ms, 0 ≤ s ∧ s ≤ 1 := by
  intro top
  induction top with
  | nil =>
    intro ms h
    simp only [monoScores, Option.some.injEq] at h
    subst h
    intro s hs
    simp at hs
  | cons nv rest ih =>
    intro ms h
    obtain ⟨name, v⟩ := nv
    by_cases hc : name ∈ X.cols
    · simp only [monoScores, if_pos hc, Option.bind_eq_bind,
        Option.bind_eq_some, Option.pure_def, Option.some.injEq] at h
      obtain ⟨yPert, hPert, tl, htl, hcons⟩ := h
      subst hcons
      intro s hs
      rcases List.mem_cons.mp hs with hs | hs
      · subst hs
        refine ⟨le_max_left 0 _, ?_⟩
        by_cases hemp : X.rows.isEmpty
        · simp [hemp]
        · rw [if_neg hemp]
          apply max_le (by norm_num)
          have hrne : X.rows ≠ [] := by
            intro hr
            rw [hr] at hemp
            simp at hemp
          have hr0 : 0 < X.rows.length := List.length_pos.mpr hrne
          have hlz : yPert.length = X.rows.length := by
            have := predictAll_length m _ _ hPert
            simpa [List.length_map] using this
          have hznil : List.zipWith (fun a b => a - b) yPred yPert ≠ [] := by
            intro hz
            have hlen0 : min yPred.length yPert.length = 0 := by
              simpa [List.length_zipWith] using congrArg List.length hz
            omega
          apply meanQ_le _ hznil
          intro x hx
          exact (zipWith_sub_bounds yPred yPert hyb
            (predictAll_bounds m hp _ _ hPert) x hx).2
      · exact ih tl htl s hs
    · rw [monoScores, if_neg hc] at h
      exact ih ms h

/-- Structure of a successful `_calculate_faithfulness` run: the exact
selectivity formula and, when the model emits probabilities, bounds on the
monotonicity mean and the composition of the final score. -/
lemma faithfulnessCore_spec (m : PModel) (X : DataFrame)
    (imp : List (String × ℚ)) (r : FaithfulnessResult)
    (h : faithfulnessCore m X imp = some r)
    (hp : ∀ row p, m.predictProba row = some p → 0 ≤ p ∧ p ≤ 1) :
    r.selectivity = min 1 (((min 5 imp.length : ℕ) : ℚ) / 10) ∧
    0 ≤ r.selectivity ∧ r.selectivity ≤ 1/2 ∧
    0 ≤ r.monotonicity ∧ r.monotonicity ≤ 1 ∧
    r.score = 3/5 * r.monotonicity + 2/5 * r.selectivity := by
  simp only [faithfulnessCore, Option.bind_eq_bind, Option.bind_eq_some,
    Option.pure_def, Option.some.injEq] at h
  obtain ⟨yPred, hyPred, ms, hms, hr⟩ := h
  subst hr
  have hlen :
      ((imp.insertionSort (fun a b => b.2 ≤ a.2)).take 5).length
        = min 5 imp.length := by
    rw [List.length_take, List.length_insertionSort]
  have hyb := predictAll_bounds m hp X.rows yPred hyPred
  have hylen := predictAll_length m X.rows yPred hyPred
  have hmsb := monoScores_bounds m X yPred hp hyb hylen _ ms hms
  have hm0 : (0 : ℚ) ≤ (if ms.isEmpty then 1/2 else meanQ ms) := by
    by_cases he : ms.isEmpty
    · simp [he]
    · rw [if_neg he]
      refine le_meanQ ms ?_ 0 (fun x hx => (hmsb x hx).1)
      intro hnil
      rw [hnil] at he
      simp at he
  have hm1 : (if ms.isEmpty then 1/2 else meanQ ms) ≤ 1 := by
    by_cases he : ms.isEmpty
    · rw [if_pos he]; norm_num
    · rw [if_neg he]
      refine meanQ_le ms ?_ 1 (fun x hx => (hmsb x hx).2)
      intro hnil
      rw [hnil] at he
      simp at he
  have hk5 : (min 5 imp.length : ℕ) ≤ 5 := Nat.min_le_left _ _
  refine ⟨by rw [hlen], ?_, ?_, hm0, hm1, rfl⟩
  · apply le_min (by norm_num)
    positivity
  · rw [hlen]
    refine le_trans (min_le_right _ _) ?_
    rw [div_le_iff₀ (by norm_num : (0:ℚ) < 10)]
    calc ((min 5 imp.length : ℕ) : ℚ) ≤ 5 := by exact_mod_cast hk5
    _ ≤ 1/2 * 10 := by norm_num

/-! ### Helper lemmas for the complexity score -/

/-- Chebyshev-type inequality: on an ascending list,
`(2k + n - 1) * sum ≤ 2 * Σ (k+i)·x_i` (indices starting at `k`). -/
lemma chebyshev_sorted (l : List ℚ) (h : l.Sorted (· ≤ ·)) :
    ∀ k : ℕ, (2 * (k : ℚ) + l.length - 1) * l.sum ≤ 2 * idxWeightedSum k l := by
  induction l with
  | nil => intro k; simp [idxWeightedSum]
  | cons z xs ih =>
    intro k
    rw [List.sorted_cons] at h
    obtain ⟨hzle, hxs⟩ := h
    have hih := ih hxs (k + 1)
    have hz : (xs.length : ℚ) * z ≤ xs.sum := by
      have := List.card_nsmul_le_sum xs z hzle
      simpa [nsmul_eq_mul] using this
    simp only [idxWeightedSum, List.sum_cons, List.length_cons]
    push_cast at hih ⊢
    nlinarith [hih, hz]

lemma idxWeightedSum_le (l : List ℚ) (hnn : ∀ x ∈ l, 0 ≤ x) :
    ∀ k : ℕ, 1 ≤ k →
      idxWeightedSum k l ≤ ((k : ℚ) + l.length - 1) * l.sum := by
  induction l with
  | nil => intro k _; simp [idxWeightedSum]
  | cons x xs ih =>
    intro k hk
    have hx : 0 ≤ x := hnn x (List.mem_cons_self x xs)
    have hih := ih (fun y hy => hnn y (List.mem_cons_of_mem x hy))
      (k + 1) (by omega)
    have hsnn : 0 ≤ xs.sum :=
      List.sum_nonneg (fun y hy => hnn y (List.mem_cons_of_mem x hy))
    have hk1 : (1 : ℚ) ≤ (k : ℚ) := by exact_mod_cast hk
    simp only [idxWeightedSum, List.sum_cons, List.length_cons]
    push_cast at hih ⊢
    nlinarith [hih, hx, hk1, hsnn]

lemma firstGE_lt_length (t : ℚ) :
    ∀ (l : List ℚ) (i : ℕ), firstGE t l = some i → i < l.length := by
  intro l
  induction l with
  | nil => intro i h; simp [firstGE] at h
  | cons c cs ih =>
    intro i h
    by_cases hc : t ≤ c
    · simp only [firstGE, if_pos hc, Option.some.injEq] at h
      simp [← h, List.length_cons]
    · simp only [firstGE, if_neg hc, Option.map_eq_some'] at h
      obtain ⟨j, hj, hji⟩ := h
      have := ih j hj
      simp only [List.length_cons, ← hji]
      omega

lemma cumsumFrom_length (l : List ℚ) :
    ∀ acc, (cumsumFrom acc l).length = l.length := by
  induction l with
  | nil => intro acc; rfl
  | cons x xs ih => intro acc; simp [cumsumFrom, ih]

/-- The Gini line yields a value in `[0, 1]` on a nonempty ascending list
of nonnegative values with nonzero sum. -/
lemma giniOfSorted_bounds (s : List ℚ) (hne : s ≠ [])
    (hsorted : s.Sorted (· ≤ ·)) (hnn : ∀ x ∈ s, 0 ≤ x)
    (hs : s.sum ≠ 0) :
    ∃ g, giniOfSorted s = some g ∧ 0 ≤ g ∧ g ≤ 1 := by
  have htotal : 0 < s.sum :=
    lt_of_le_of_ne (List.sum_nonneg hnn) (Ne.symm hs)
  have hn : 0 < s.length := List.length_pos.mpr hne
  have hnq : (0 : ℚ) < (s.length : ℚ) := by exact_mod_cast hn
  have hnt : (0 : ℚ) < (s.length : ℚ) * s.sum := by positivity
  have hcheb : ((s.length : ℚ) + 1) * s.sum ≤ 2 * idxWeightedSum 1 s := by
    have := chebyshev_sorted s hsorted 1
    push_cast at this
    linarith
  have hupper : idxWeightedSum 1 s ≤ (s.length : ℚ) * s.sum := by
    have := idxWeightedSum_le s hnn 1 le_rfl
    push_cast at this
    linarith
  refine ⟨2 * idxWeightedSum 1 s / ((s.length : ℚ) * s.sum)
      - ((s.length : ℚ) + 1) / (s.length : ℚ), ?_, ?_, ?_⟩
  · rw [giniOfSorted, if_neg hs]
  · rw [sub_nonneg, div_le_div_iff₀ hnq hnt]
    nlinarith [hcheb, hnq]
  · have h2 : 2 * idxWeightedSum 1 s / ((s.length : ℚ) * s.sum) ≤ 2 := by
      rw [div_le_iff₀ hnt]
      linarith
    have h3 : (1 : ℚ) ≤ ((s.length : ℚ) + 1) / (s.length : ℚ) := by
      rw [le_div_iff₀ hnq]
      linarith
    linarith

/-- The effective-feature count is between 1 and the list length. -/
lemma effectiveFeatureCount_bounds (desc : List ℚ) (hne : desc ≠ []) :
    1 ≤ effectiveFeatureCount desc ∧
      effectiveFeatureCount desc ≤ desc.length := by
  constructor
  · rw [effectiveFeatureCount]; omega
  · rw [effectiveFeatureCount]
    cases hfg : firstGE (4/5 * (cumsum desc).getLastD 0) (cumsum desc) with
    | none =>
      have : 0 < desc.length := List.length_pos.mpr hne
      simpa using this
    | some i =>
      have hi := firstGE_lt_length _ _ _ hfg
      rw [cumsum, cumsumFrom_length] at hi
      simpa using hi

/-- Structure of `_calculate_complexity` on a nonempty importance list with
nonnegative values and nonzero total: the Gini coefficient is a real number
in `[0, 1]`, the sparsity term is in `[0, 1]`, and the reported score
combines them 50/50, hence also lies in `[0, 1]`. -/
lemma calculateComplexity_spec (imp : List ℚ)
    (hne : imp ≠ []) (hnn : ∀ x ∈ imp, 0 ≤ x) (hs : imp.sum ≠ 0) :
    ∃ g, (calculateComplexity imp).gini = some g ∧ 0 ≤ g ∧ g ≤ 1 ∧
      (calculateComplexity imp).score
        = some (1/2 * g + 1/2 * (calculateComplexity imp).sparsity) ∧
      0 ≤ (calculateComplexity imp).sparsity ∧
      (calculateComplexity imp).sparsity ≤ 1 := by
  have hemp : ¬ imp.isEmpty = true := by
    cases imp with
    | nil => exact absurd rfl hne
    | cons a l => simp
  have hsorted := List.sorted_insertionSort (· ≤ ·) imp
  have hnn' : ∀ x ∈ imp.insertionSort (· ≤ ·), 0 ≤ x := by
    intro x hx
    exact hnn x ((List.mem_insertionSort _).mp hx)
  have hsum : (imp.insertionSort (· ≤ ·)).sum = imp.sum :=
    (List.perm_insertionSort (· ≤ ·) imp).sum_eq
  have hsne : imp.insertionSort (· ≤ ·) ≠ [] := by
    intro h0
    have := congrArg List.length h0
    rw [List.length_insertionSort] at this
    exact hne (List.length_eq_zero.mp this)
  obtain ⟨g, hg, hg0, hg1⟩ :=
    giniOfSorted_bounds (imp.insertionSort (· ≤ ·)) hsne hsorted hnn'
      (by rw [hsum]; exact hs)
  have hdne : imp.insertionSort (fun a b => b ≤ a) ≠ [] := by
    intro h0
    have := congrArg List.length h0
    rw [List.length_insertionSort] at this
    exact hne (List.length_eq_zero.mp this)
  obtain ⟨heff1, heffn⟩ := effectiveFeatureCount_bounds _ hdne
  rw [List.length_insertionSort] at heffn
  have hnq : (0 : ℚ) < (imp.length : ℚ) := by
    exact_mod_cast List.length_pos.mpr hne
  have hsp0 : 0 ≤ 1 - ((effectiveFeatureCount
      (imp.insertionSort (fun a b => b ≤ a)) : ℚ) / (imp.length : ℚ)) := by
    rw [sub_nonneg, div_le_one hnq]
    exact_mod_cast heffn
  have hsp1 : 1 - ((effectiveFeatureCount
      (imp.insertionSort (fun a b => b ≤ a)) : ℚ) / (imp.length : ℚ)) ≤ 1 := by
    have h5 : (0 : ℚ) ≤ (effectiveFeatureCount
        (imp.insertionSort (fun a b => b ≤ a)) : ℚ) / (imp.length : ℚ) := by
      positivity
    linarith
  refine ⟨g, ?_, hg0, hg1, ?_, ?_, ?_⟩
  · simp only [calculateComplexity, hemp, Bool.false_eq_true, if_false, hg]
  · simp only [calculateComplexity, hemp, Bool.false_eq_true, if_false, hg]
    rfl
  · simp only [calculateComplexity, hemp, Bool.false_eq_true, if_false]
    exact hsp0
  · simp only [calculateComplexity, hemp, Bool.false_eq_true, if_false]
    exact hsp1

/-- Bounds of the robustness score: the clamp `max(0, min(1, stability))`
keeps every non-fallback score in `[0, 1]`, and the fallback is 4/5. -/
lemma calculateRobustness_bounds (corrs : Option (List ℚ)) :
    0 ≤ (calculateRobustness corrs).score ∧
      (calculateRobustness corrs).score ≤ 1 := by
  cases corrs with
  | none =>
    constructor <;> norm_num [calculateRobustness, robustnessFallback]
  | some cs =>
    constructor
    · exact le_max_left 0 _
    · exact max_le zero_le_one (min_le_left _ _)

/-- Bounds of the faithfulness score: with a probabilistic model, every
returned score lies in `[0, 4/5]` (the fallback 1/2 included). -/
lemma calculateFaithfulness_bounds (m : PModel) (X : DataFrame)
    (imp : List (String × ℚ))
    (hp : ∀ row p, m.predictProba row = some p → 0 ≤ p ∧ p ≤ 1) :
    0 ≤ (calculateFaithfulness m X imp).score ∧
      (calculateFaithfulness m X imp).score ≤ 4/5 := by
  cases hcore : faithfulnessCore m X imp with
  | none =>
    rw [calculateFaithfulness, hcore]
    constructor <;> norm_num [faithfulnessFallback]
  | some fr =>
    rw [calculateFaithfulness, hcore, Option.getD_some]
    obtain ⟨_, hs0, hs2, hm0, hm1, hscore⟩ :=
      faithfulnessCore_spec m X imp fr hcore hp
    rw [hscore]
    constructor <;> linarith

/-! ### Claims C1, C4, C5, C10 (quality evaluation) -/

/-- The overall-quality formula exactly as claim C1 states it: weight 0.3
on `1 − sparsity component`, the sparsity component being
`1 − effective_features / total_feature_count`. -/
def claimedOverallC1 (r : QualityResult) (numFeatures : ℕ) : ℚ :=
  2/5 * r.faithfulness.score + 3/10 * r.robustness.score
    + 3/10 * (1 - (1 - (r.complexity.effectiveFeatures : ℚ)
        / (numFeatures : ℚ)))

/-- Concrete evaluation environment for claim C1: the model raises inside
`predict_proba` (faithfulness falls back to 1/2), the SHAP interaction
raises (robustness falls back to 4/5), and the importance map is
`a ↦ 3, b ↦ 1`. -/
def envC1 : QualityEnv :=
  { model := some ⟨fun _ => none⟩,
    testData := some ⟨["a", "b"], [[("a", 1), ("b", 2)]]⟩,
    shapCorrelations := none }

def impC1 : List (String × ℚ) := [("a", 3), ("b", 1)]

/-- The quality result the embedding computes for `envC1`/`impC1`. -/
def resC1 : QualityResult :=
  { faithfulness := faithfulnessFallback,
    robustness := robustnessFallback,
    complexity := { score := some (1/8), sparsity := 0, gini := some (1/4),
                    effectiveFeatures := 2 },
    overallQuality := some (191/400),
    sampleSize := 1 }

set_option maxHeartbeats 2000000 in
/-- Evaluation of the embedding at the concrete input `envC1`/`impC1`. -/
lemma evaluate_envC1_eq :
    evaluateExplanationQuality envC1 impC1 50 = some resC1 := by
  norm_num [evaluateExplanationQuality, envC1, impC1, resC1,
    calculateFaithfulness, faithfulnessCore, predictAll, monoScores,
    calculateRobustness, calculateComplexity, giniOfSorted,
    effectiveFeatureCount, cumsum, cumsumFrom, firstGE, idxWeightedSum,
    meanQ, medianQ, rowGet, setRow, List.insertionSort,
    List.orderedInsert, faithfulnessFallback, robustnessFallback,
    complexityFallback]

/-- Claim C1, counterexample: at the concrete input `envC1`/`impC1` the
evaluation reports overall quality 191/400, while the formula the claim
states (`0.4·f + 0.3·r + 0.3·(1 − sparsity component)` with sparsity
component `1 − effective/total`) evaluates to 37/50, so the reported
overall does not equal the claimed expression. -/
theorem C1_counterexample :
    evaluateExplanationQuality envC1 impC1 50 = some resC1 ∧
    resC1.overallQuality = some (191/400) ∧
    claimedOverallC1 resC1 impC1.length = 37/50 ∧
    some (191/400 : ℚ) ≠ some (37/50 : ℚ) := by
  refine ⟨evaluate_envC1_eq, ?_, ?_, ?_⟩
  · norm_num [resC1]
  · norm_num [claimedOverallC1, resC1, impC1, faithfulnessFallback,
      robustnessFallback]
  · norm_num

/-- Claim C1 (amended): the reported overall quality equals
`0.4·faithfulness + 0.3·robustness + 0.3·complexity_score`, where the
third weight multiplies the full complexity sub-score; on the
non-degenerate path (nonempty importance map with nonzero total) that
sub-score is `0.5·gini + 0.5·sparsity` with
`sparsity = 1 − effective_features / total_feature_count`. -/
theorem C1_amended (env : QualityEnv) (imp : List (String × ℚ)) (ss : ℕ)
    (r : QualityResult)
    (h : evaluateExplanationQuality env imp ss = some r) :
    r.overallQuality = r.complexity.score.map
      (fun c => 2/5 * r.faithfulness.score + 3/10 * r.robustness.score
        + 3/10 * c) ∧
    (imp ≠ [] → (imp.map (fun p => p.2)).sum ≠ 0 →
      ∃ g, r.complexity.gini = some g ∧
        r.complexity.score = some (1/2 * g + 1/2 * r.complexity.sparsity) ∧
        r.complexity.sparsity
          = 1 - (r.complexity.effectiveFeatures : ℚ) / (imp.length : ℚ)) := by
  cases hm : env.model with
  | none => rw [evaluateExplanationQuality, hm] at h; exact absurd h (by simp)
  | some m =>
    cases hX : env.testData with
    | none =>
      rw [evaluateExplanationQuality, hm] at h
      exact absurd h (by simp [hX])
    | some X =>
      simp only [evaluateExplanationQuality, hm, hX, Option.bind_eq_bind,
        Option.some_bind, Option.pure_def, Option.some.injEq] at h
      subst h
      constructor
      · rfl
      · intro hne hsum
        have hmapne : imp.map (fun p => p.2) ≠ [] := by
          intro h0
          rw [h0] at hsum
          exact hsum rfl
        have hemp : ¬ (imp.map (fun p => p.2)).isEmpty = true := by
          cases hmap : imp.map (fun p => p.2) with
          | nil => exact absurd hmap hmapne
          | cons a l => simp
        have hsum' :
            ((imp.map (fun p => p.2)).insertionSort (· ≤ ·)).sum ≠ 0 := by
          rw [(List.perm_insertionSort (· ≤ ·)
            (imp.map (fun p => p.2))).sum_eq]
          exact hsum
        dsimp only
        refine ⟨2 * idxWeightedSum 1
            ((imp.map (fun p => p.2)).insertionSort (· ≤ ·))
            / ((((imp.map (fun p => p.2)).insertionSort (· ≤ ·)).length : ℚ)
              * ((imp.map (fun p => p.2)).insertionSort (· ≤ ·)).sum)
          - ((((imp.map (fun p => p.2)).insertionSort (· ≤ ·)).length : ℚ)
              + 1)
            / (((imp.map (fun p => p.2)).insertionSort (· ≤ ·)).length : ℚ),
          ?_, ?_, ?_⟩ <;>
          simp only [calculateComplexity, hemp, Bool.false_eq_true, if_false,
            giniOfSorted, hsum', if_neg hsum']
        · rfl
        · rw [List.length_map]

/-- Claim C4: every sub-score computation that fails internally returns
its fixed fallback constant (faithfulness 1/2, robustness 4/5, complexity
7/10) instead of propagating the error, and
`evaluate_explanation_quality` therefore returns a result whenever the
model and the test data load. -/
theorem C4_fallback_totality :
    (∀ m X imp, faithfulnessCore m X imp = none →
        calculateFaithfulness m X imp = faithfulnessFallback) ∧
    calculateRobustness none = robustnessFallback ∧
    (∀ imp : List ℚ, imp = [] →
        calculateComplexity imp = complexityFallback) ∧
    (∀ env imp ss, env.model.isSome → env.testData.isSome →
        (evaluateExplanationQuality env imp ss).isSome) := by
  refine ⟨?_, rfl, ?_, ?_⟩
  · intro m X imp h
    rw [calculateFaithfulness, h]
    rfl
  · intro imp h
    subst h
    rfl
  · intro env imp ss hm hX
    obtain ⟨m, hm'⟩ := Option.isSome_iff_exists.mp hm
    obtain ⟨X, hX'⟩ := Option.isSome_iff_exists.mp hX
    simp [evaluateExplanationQuality, hm', hX']

/-- Model whose `predict_proba` always raises, and a one-row frame, used
to exercise the faithfulness fallback. -/
def pmRaise : PModel := ⟨fun _ => none⟩

def dfOne : DataFrame := ⟨["a"], [[("a", 1)]]⟩

/-- Witness for claim C4 at concrete inputs: a model that raises on
prediction triggers the faithfulness fallback, the empty importance list
triggers the complexity fallback, and a loadable environment yields a
result. -/
theorem C4_witness :
    (faithfulnessCore pmRaise dfOne [("a", 1)] = none ∧
      calculateFaithfulness pmRaise dfOne [("a", 1)] = faithfulnessFallback) ∧
    (([] : List ℚ) = [] ∧ calculateComplexity [] = complexityFallback) ∧
    (envC1.model.isSome ∧ envC1.testData.isSome ∧
      (evaluateExplanationQuality envC1 impC1 50).isSome) :=
  ⟨⟨by norm_num [faithfulnessCore, predictAll, pmRaise, dfOne],
    C4_fallback_totality.1 pmRaise dfOne [("a", 1)]
      (by norm_num [faithfulnessCore, predictAll, pmRaise, dfOne])⟩,
   ⟨rfl, C4_fallback_totality.2.2.1 [] rfl⟩,
   ⟨by norm_num [envC1], by norm_num [envC1],
     C4_fallback_totality.2.2.2 envC1 impC1 50 (by norm_num [envC1])
       (by norm_num [envC1])⟩⟩

/-- Witness for the amended claim C1: the general theorem applied at the
concrete evaluation `envC1`/`impC1`. -/
theorem C1_amended_witness :
    evaluateExplanationQuality envC1 impC1 50 = some resC1 ∧
    (resC1.overallQuality = resC1.complexity.score.map
      (fun c => 2/5 * resC1.faithfulness.score
        + 3/10 * resC1.robustness.score + 3/10 * c) ∧
    (impC1 ≠ [] → (impC1.map (fun p => p.2)).sum ≠ 0 →
      ∃ g, resC1.complexity.gini = some g ∧
        resC1.complexity.score
          = some (1/2 * g + 1/2 * resC1.complexity.sparsity) ∧
        resC1.complexity.sparsity
          = 1 - (resC1.complexity.effectiveFeatures : ℚ)
            / (impC1.length : ℚ))) :=
  ⟨evaluate_envC1_eq, C1_amended envC1 impC1 50 resC1 evaluate_envC1_eq⟩

/-- Predicate used to state the score-bounds claim C5: an optional float
is a real number lying in the unit interval (a NaN value is not). -/
def scoreInUnit (s : Option ℚ) : Prop := ∃ c, s = some c ∧ 0 ≤ c ∧ c ≤ 1

/-- A model that returns probability 1/2 on every row. -/
def pmHalf : PModel := ⟨fun _ => some (1/2)⟩

/-- Concrete environment for claim C5: everything loads, the SHAP
interaction succeeds with an empty correlation list, but the importance
map carries a single zero weight, so the Gini denominator is zero. -/
def envC5 : QualityEnv :=
  { model := some pmHalf,
    testData := some ⟨["a"], [[("a", 1)]]⟩,
    shapCorrelations := some [] }

def impC5 : List (String × ℚ) := [("a", 0)]

/-- The quality result the embedding computes for `envC5`/`impC5`: the
complexity score and the overall quality are NaN (`none`). -/
def resC5 : QualityResult :=
  ⟨⟨1/25, 0, 1/10, "How well explanations reflect actual model behavior"⟩,
   ⟨4/5, 4/5, "How stable explanations are under perturbations"⟩,
   ⟨none, 0, none, 1⟩, none, 1⟩

set_option maxHeartbeats 2000000 in
/-- Evaluation of the embedding at the concrete input `envC5`/`impC5`. -/
lemma evaluate_envC5_eq :
    evaluateExplanationQuality envC5 impC5 50 = some resC5 := by
  norm_num [evaluateExplanationQuality, envC5, impC5, resC5, pmHalf,
    calculateFaithfulness, faithfulnessCore, predictAll, monoScores,
    calculateRobustness, calculateComplexity, giniOfSorted,
    effectiveFeatureCount, cumsum, cumsumFrom, firstGE, idxWeightedSum,
    meanQ, medianQ, rowGet, setRow, List.insertionSort,
    List.orderedInsert, faithfulnessFallback, robustnessFallback,
    complexityFallback]

/-- Claim C5, counterexample: with an all-zero importance map the
evaluation completes but its complexity score and overall quality are NaN
(`none`), which does not lie in the interval `[0, 1]`, so not every
returned result has all four scores in `[0, 1]`. -/
theorem C5_counterexample :
    evaluateExplanationQuality envC5 impC5 50 = some resC5 ∧
    resC5.complexity.score = none ∧ ¬ scoreInUnit resC5.complexity.score ∧
    resC5.overallQuality = none ∧ ¬ scoreInUnit resC5.overallQuality := by
  refine ⟨evaluate_envC5_eq, rfl, ?_, rfl, ?_⟩
  · rintro ⟨c, hc, -⟩
    exact Option.noConfusion hc
  · rintro ⟨c, hc, -⟩
    exact Option.noConfusion hc

/-- Claim C5 (amended): for every returned evaluation result, if the
model emits probabilities in `[0, 1]` and the importance values are
nonnegative and (when nonempty) have nonzero sum, then the faithfulness,
robustness, complexity and overall scores all lie in `[0, 1]`; with an
all-zero importance map the complexity and overall scores are NaN
instead. -/
theorem C5_amended (env : QualityEnv) (imp : List (String × ℚ)) (ss : ℕ)
    (r : QualityResult)
    (h : evaluateExplanationQuality env imp ss = some r)
    (hp : ∀ m, env.model = some m →
      ∀ row p, m.predictProba row = some p → 0 ≤ p ∧ p ≤ 1)
    (hnn : ∀ pr ∈ imp, 0 ≤ pr.2)
    (hz : imp = [] ∨ (imp.map (fun p => p.2)).sum ≠ 0) :
    (0 ≤ r.faithfulness.score ∧ r.faithfulness.score ≤ 1) ∧
    (0 ≤ r.robustness.score ∧ r.robustness.score ≤ 1) ∧
    scoreInUnit r.complexity.score ∧ scoreInUnit r.overallQuality := by
  cases hm : env.model with
  | none => rw [evaluateExplanationQuality, hm] at h; exact absurd h (by simp)
  | some m =>
    cases hX : env.testData with
    | none =>
      rw [evaluateExplanationQuality, hm] at h
      exact absurd h (by simp [hX])
    | some X =>
      simp only [evaluateExplanationQuality, hm, hX, Option.bind_eq_bind,
        Option.some_bind, Option.pure_def, Option.some.injEq] at h
      subst h
      have hpm := hp m hm
      obtain ⟨hf0, hf1⟩ := calculateFaithfulness_bounds m
        (if ss < X.rows.length then ⟨X.cols, X.rows.take ss⟩ else X) imp hpm
      obtain ⟨hr0, hr1⟩ := calculateRobustness_bounds env.shapCorrelations
      have hcs : ∃ c,
          (calculateComplexity (imp.map (fun p => p.2))).score = some c ∧
            0 ≤ c ∧ c ≤ 1 := by
        rcases hz with hz | hz
        · subst hz
          exact ⟨7/10, rfl, by norm_num, by norm_num⟩
        · have hmapne : imp.map (fun p => p.2) ≠ [] := by
            intro h0
            rw [h0] at hz
            exact hz rfl
          have hnn' : ∀ x ∈ imp.map (fun p => p.2), 0 ≤ x := by
            intro x hx
            obtain ⟨pr, hpr, hval⟩ := List.mem_map.mp hx
            exact hval ▸ hnn pr hpr
          obtain ⟨g, hg, hg0, hg1, hscore, hsp0, hsp1⟩ :=
            calculateComplexity_spec (imp.map (fun p => p.2)) hmapne hnn' hz
          refine ⟨_, hscore, by linarith, by linarith⟩
      obtain ⟨c, hc, hc0, hc1⟩ := hcs
      refine ⟨⟨hf0, by linarith⟩, ⟨hr0, hr1⟩, ⟨c, hc, hc0, hc1⟩, ?_⟩
      refine ⟨2/5 * (calculateFaithfulness m
          (if ss < X.rows.length then ⟨X.cols, X.rows.take ss⟩ else X)
          imp).score
        + 3/10 * (calculateRobustness env.shapCorrelations).score
        + 3/10 * c, ?_, by linarith, by linarith⟩
      show ((calculateComplexity (imp.map (fun p => p.2))).score.map _)
          = _
      rw [hc]
      rfl

/-- Witness for the amended claim C5: the theorem applied at the concrete
evaluation `envC1`/`impC1` (model probabilities vacuously in bounds,
importance values 3 and 1). -/
theorem C5_amended_witness :
    evaluateExplanationQuality envC1 impC1 50 = some resC1 ∧
    ((0 ≤ resC1.faithfulness.score ∧ resC1.faithfulness.score ≤ 1) ∧
     (0 ≤ resC1.robustness.score ∧ resC1.robustness.score ≤ 1) ∧
     scoreInUnit resC1.complexity.score ∧
     scoreInUnit resC1.overallQuality) :=
  ⟨evaluate_envC1_eq,
    C5_amended envC1 impC1 50 resC1 evaluate_envC1_eq
      (by
        intro m hm row p hpred
        have hme : m = ⟨fun _ => none⟩ := by
          injection hm with h
          exact h.symm
        subst hme
        exact Option.noConfusion hpred)
      (by
        intro pr hpr
        rcases List.mem_cons.mp hpr with h | h
        · rw [h]; norm_num
        · rcases List.mem_cons.mp h with h2 | h2
          · rw [h2]; norm_num
          · simp at h2)
      (Or.inr (by norm_num [impC1]))⟩

/-- Claim C10: on every successful (non-fallback) faithfulness
computation, the selectivity equals `min(1, k/10)` with `k = min 5 |imp|`
the size of the top-feature slice, hence selectivity is at most 1/2 and
the score `0.6·monotonicity + 0.4·selectivity` is at most 4/5 — it can
never reach 1. -/
theorem C10_selectivity_cap (m : PModel) (X : DataFrame)
    (imp : List (String × ℚ)) (r : FaithfulnessResult)
    (h : faithfulnessCore m X imp = some r)
    (hp : ∀ row p, m.predictProba row = some p → 0 ≤ p ∧ p ≤ 1) :
    r.selectivity = min 1 (((min 5 imp.length : ℕ) : ℚ) / 10) ∧
    r.selectivity ≤ 1/2 ∧ r.score ≤ 4/5 ∧ r.score < 1 := by
  obtain ⟨hsel, hs0, hs2, hmo0, hmo1, hscore⟩ :=
    faithfulnessCore_spec m X imp r h hp
  refine ⟨hsel, hs2, ?_, ?_⟩
  · rw [hscore]; linarith
  · rw [hscore]; linarith

/-- The faithfulness result computed at the concrete C10 input. -/
def frC10 : FaithfulnessResult :=
  { score := 1/25, monotonicity := 0, selectivity := 1/10,
    description := "How well explanations reflect actual model behavior" }

/-- Witness for claim C10: the theorem applied to a concrete successful
faithfulness computation (constant model 1/2, one row, one feature). -/
theorem C10_witness :
    faithfulnessCore pmHalf ⟨["a"], [[("a", 1)]]⟩ impC5 = some frC10 ∧
    (frC10.selectivity
        = min 1 (((min 5 impC5.length : ℕ) : ℚ) / 10) ∧
      frC10.selectivity ≤ 1/2 ∧ frC10.score ≤ 4/5 ∧ frC10.score < 1) := by
  have hcore : faithfulnessCore pmHalf ⟨["a"], [[("a", 1)]]⟩ impC5
      = some frC10 := by
    norm_num [faithfulnessCore, predictAll, monoScores, pmHalf, impC5,
      frC10, meanQ, medianQ, rowGet, setRow, List.insertionSort,
      List.orderedInsert]
  refine ⟨hcore, C10_selectivity_cap pmHalf ⟨["a"], [[("a", 1)]]⟩ impC5
    frC10 hcore ?_⟩
  intro row p hpred
  have hpe : p = 1/2 := by
    injection hpred with h
    exact h.symm
  rw [hpe]
  norm_num

/-! ### ModelTrainingService.train_model

`model_service.py` interacts with the metadata store through the DAL,
whose operations never raise (`get_dataset` returns `None` on failure,
`create_model` returns the id or `None`, `save_model_metrics` returns a
boolean the caller ignores).  The environment fixes the outcome of each
fallible step of one call; the store records which Model/Metrics/
Explanation rows exist.  The R2 model upload's boolean result is ignored
by the source, so it does not appear in the control flow. -/

/-- Dataset row as read by `dal.get_dataset`. -/
structure DatasetRec where
  status : String
  filePath : Option String
deriving Repr, DecidableEq

/-- Model row in the metadata store. -/
structure ModelRec where
  id : String
  status : String
  errorMessage : Option String
deriving Repr, DecidableEq

/-- The metadata store state touched by training: model rows, the set of
model ids with a Metrics row, and the (model id, method) explanations. -/
structure MetaStore where
  models : List ModelRec
  metricsFor : List String
  explanationsFor : List (String × String)
deriving Repr, DecidableEq

/-- Outcomes of the fallible steps of one `train_model` call. -/
structure TrainEnv where
  dataset : Option DatasetRec
  downloadsOk : Bool
  trainOk : Bool
  createModelOk : Bool
  saveMetricsOk : Bool
  explanationOk : Bool
  metricsData : String
deriving Repr, DecidableEq

/-- The dictionary `train_model` returns: `status` is "success" or
"error"; the metrics payload is present only on success. -/
structure TrainOutcome where
  status : String
  modelId : String
  metrics : Option String
  error : Option String
deriving Repr, DecidableEq

/-- `ModelTrainingService.train_model`.  Every exception lands in the
final `except` handler, which only logs and returns an error dictionary —
it performs no store write.  On the success path the Model row is created
with status `completed`; a failing `create_model` (returning `None`)
raises before any row exists; a failing `save_model_metrics` is silently
ignored; the SHAP explanation step swallows its own failures. -/
def trainModel (env : TrainEnv) (datasetId modelId : String)
    (store : MetaStore) : MetaStore × TrainOutcome :=
  match env.dataset with
  | none =>
    (store, ⟨"error", modelId, none,
      some ("Dataset " ++ datasetId ++ " not found")⟩)
  | some ds =>
    if ds.status = "completed" then
      match ds.filePath with
      | none =>
        (store, ⟨"error", modelId, none,
          some ("Dataset " ++ datasetId ++ " has no file path")⟩)
      | some _ =>
        if !env.downloadsOk then
          (store, ⟨"error", modelId, none,
            some "failed to load processed data"⟩)
        else if !env.trainOk then
          (store, ⟨"error", modelId, none, some "model training raised"⟩)
        else if !env.createModelOk then
          (store, ⟨"error", modelId, none,
            some ("Failed to save model " ++ modelId ++ " to database")⟩)
        else
          let store1 : MetaStore :=
            { store with models := store.models ++ [⟨modelId, "completed", none⟩] }
          let store2 : MetaStore :=
            if env.saveMetricsOk then
              { store1 with metricsFor := store1.metricsFor ++ [modelId] }
            else store1
          let store3 : MetaStore :=
            if env.explanationOk then
              { store2 with explanationsFor :=
                  store2.explanationsFor ++ [(modelId, "shap")] }
            else store2
          (store3, ⟨"success", modelId, some env.metricsData, none⟩)
    else
      (store, ⟨"error", modelId, none,
        some ("Dataset " ++ datasetId ++ " is not processed")⟩)

/-- Environment for the C2 counterexample: the dataset lookup fails. -/
def envC2 : TrainEnv :=
  { dataset := none, downloadsOk := true, trainOk := true,
    createModelOk := true, saveMetricsOk := true, explanationOk := true,
    metricsData := "metrics" }

/-- The empty metadata store. -/
def emptyStore : MetaStore := ⟨[], [], []⟩

/-- Claim C2, counterexample: when the dataset lookup fails before any
record is written, `train_model` returns an error result but leaves NO
Model record at all in the metadata store — in particular no record with
status `failed` carrying the error text, contradicting the claim. -/
theorem C2_counterexample :
    (trainModel envC2 "ds" "m1" emptyStore).2.status = "error" ∧
    (trainModel envC2 "ds" "m1" emptyStore).1.models = [] ∧
    ¬ ∃ rec, rec ∈ (trainModel envC2 "ds" "m1" emptyStore).1.models ∧
        rec.status = "failed" := by
  refine ⟨rfl, rfl, ?_⟩
  rintro ⟨rec, hmem, -⟩
  simp [trainModel, envC2, emptyStore] at hmem

/-- Claim C2 (amended): `train_model` never writes a `failed` Model
record — on any exception the store is left untouched and the error text
is only returned in the result dictionary; on success a `completed`
Model record is written, and the Metrics record exists exactly when the
(silently ignored) metrics write succeeded, so a `completed` model
without metrics is reachable. -/
theorem C2_amended (env : TrainEnv) (dsId mId : String)
    (store : MetaStore) :
    (∀ rec, rec ∈ (trainModel env dsId mId store).1.models →
        rec ∈ store.models ∨ rec.status = "completed") ∧
    ((trainModel env dsId mId store).2.status = "error" →
        (trainModel env dsId mId store).1 = store) ∧
    ((trainModel env dsId mId store).2.status = "success" →
        (⟨mId, "completed", none⟩ : ModelRec)
            ∈ (trainModel env dsId mId store).1.models ∧
        (env.saveMetricsOk = true →
            mId ∈ (trainModel env dsId mId store).1.metricsFor) ∧
        (env.saveMetricsOk = false →
            (trainModel env dsId mId store).1.metricsFor
              = store.metricsFor)) := by
  rcases hds : env.dataset with - | ds
  · refine ⟨?_, ?_, ?_⟩ <;> simp [trainModel, hds]
    exact fun rec h => Or.inl h
  · by_cases hst : ds.status = "completed"
    · rcases hfp : ds.filePath with - | fp
      · refine ⟨?_, ?_, ?_⟩ <;> simp [trainModel, hds, hst, hfp]
        exact fun rec h => Or.inl h
      · by_cases hdl : env.downloadsOk
        case neg =>
          refine ⟨?_, ?_, ?_⟩ <;> simp [trainModel, hds, hst, hfp, hdl]
          exact fun rec h => Or.inl h
        by_cases htr : env.trainOk
        case neg =>
          refine ⟨?_, ?_, ?_⟩ <;> simp [trainModel, hds, hst, hfp, hdl, htr]
          exact fun rec h => Or.inl h
        by_cases hcm : env.createModelOk
        case neg =>
          refine ⟨?_, ?_, ?_⟩ <;>
            simp [trainModel, hds, hst, hfp, hdl, htr, hcm]
          exact fun rec h => Or.inl h
        refine ⟨?_, ?_, ?_⟩ <;>
          simp only [trainModel, hds, hst, hfp, hdl, htr, hcm, if_true,
            Bool.not_true, Bool.false_eq_true, if_false, if_pos rfl]
        · intro rec hmem
          by_cases hsm : env.saveMetricsOk <;>
            by_cases hex : env.explanationOk <;>
            simp only [hsm, hex, if_true, if_false] at hmem <;>
            rcases List.mem_append.mp hmem with h | h <;>
            first
              | exact Or.inl h
              | (rw [List.mem_singleton.mp h]; exact Or.inr rfl)
        · intro h
          by_cases hsm : env.saveMetricsOk <;>
            by_cases hex : env.explanationOk <;>
            simp [hsm, hex] at h
        · intro h
          refine ⟨?_, ?_, ?_⟩
          · by_cases hsm : env.saveMetricsOk <;>
              by_cases hex : env.explanationOk <;>
              simp [hsm, hex]
          · intro hsm
            by_cases hex : env.explanationOk <;> simp [hsm, hex]
          · intro hsm
            by_cases hex : env.explanationOk <;> simp [hsm, hex]
    · refine ⟨?_, ?_, ?_⟩ <;> simp [trainModel, hds, hst]
      exact fun rec h => Or.inl h

/-- An all-successful training environment over a completed dataset. -/
def envTrainOk : TrainEnv :=
  { dataset := some ⟨"completed", some "datasets/ds/processed"⟩,
    downloadsOk := true, trainOk := true, createModelOk := true,
    saveMetricsOk := true, explanationOk := true,
    metricsData := "metrics" }

/-- Witness for the amended claim C2: applied on the success path. -/
theorem C2_amended_witness :
    (trainModel envTrainOk "ds" "m1" emptyStore).2.status = "success" ∧
    ((⟨"m1", "completed", none⟩ : ModelRec)
        ∈ (trainModel envTrainOk "ds" "m1" emptyStore).1.models ∧
      (envTrainOk.saveMetricsOk = true →
          "m1" ∈ (trainModel envTrainOk "ds" "m1" emptyStore).1.metricsFor) ∧
      (envTrainOk.saveMetricsOk = false →
          (trainModel envTrainOk "ds" "m1" emptyStore).1.metricsFor
            = emptyStore.metricsFor)) :=
  ⟨rfl, (C2_amended envTrainOk "ds" "m1" emptyStore).2.2 rfl⟩

/-- Claim C7: the returned dictionary of `train_model` does not depend on
the outcome of the final SHAP explanation step — a failure there is
swallowed — and on the success path the result is the success dictionary
with the model id and the metrics payload. -/
theorem C7_explanation_swallowed (env : TrainEnv) (dsId mId : String)
    (store : MetaStore) (b : Bool) :
    (trainModel { env with explanationOk := b } dsId mId store).2
      = (trainModel env dsId mId store).2 ∧
    ((trainModel env dsId mId store).2.status = "success" →
      (trainModel { env with explanationOk := false } dsId mId store).2
        = ⟨"success", mId, some env.metricsData, none⟩) := by
  rcases hds : env.dataset with - | ds
  · exact ⟨by simp [trainModel, hds], by simp [trainModel, hds]⟩
  · by_cases hst : ds.status = "completed"
    · rcases hfp : ds.filePath with - | fp
      · exact ⟨by simp [trainModel, hds, hst, hfp],
          by simp [trainModel, hds, hst, hfp]⟩
      · by_cases hdl : env.downloadsOk
        case neg =>
          exact ⟨by simp [trainModel, hds, hst, hfp, hdl],
            by simp [trainModel, hds, hst, hfp, hdl]⟩
        by_cases htr : env.trainOk
        case neg =>
          exact ⟨by simp [trainModel, hds, hst, hfp, hdl, htr],
            by simp [trainModel, hds, hst, hfp, hdl, htr]⟩
        by_cases hcm : env.createModelOk
        case neg =>
          exact ⟨by simp [trainModel, hds, hst, hfp, hdl, htr, hcm],
            by simp [trainModel, hds, hst, hfp, hdl, htr, hcm]⟩
        constructor
        · by_cases hsm : env.saveMetricsOk <;> rcases b with - | - <;>
            by_cases hex : env.explanationOk <;>
            simp [trainModel, hds, hst, hfp, hdl, htr, hcm, hsm, hex]
        · intro h
          by_cases hsm : env.saveMetricsOk <;>
            simp [trainModel, hds, hst, hfp, hdl, htr, hcm, hsm]
    · exact ⟨by simp [trainModel, hds, hst], by simp [trainModel, hds, hst]⟩

/-- Witness for claim C7: on the all-successful environment the result is
the success dictionary whether or not the explanation step fails. -/
theorem C7_witness :
    (trainModel envTrainOk "ds" "m1" emptyStore).2.status = "success" ∧
    (trainModel { envTrainOk with explanationOk := false } "ds" "m1"
        emptyStore).2
      = ⟨"success", "m1", some envTrainOk.metricsData, none⟩ :=
  ⟨rfl,
    (C7_explanation_swallowed envTrainOk "ds" "m1" emptyStore true).2 rfl⟩

/-! ### DatasetProcessingService.process_dataset

The object store is the set of keys for which an upload returned `True`
(`R2StorageClient.upload_file` returns a boolean and never raises); the
metadata store write `update_dataset` never raises either.  The row
counters and class-balance statistics the final update also persists are
independent of every claim and are omitted from the embedded record. -/

/-- The dataset row of the metadata store. -/
structure DatasetDbRec where
  status : String
  filePath : Option String
  errorMessage : Option String
deriving Repr, DecidableEq

/-- Combined persistent state: the dataset row and the object-store keys
that currently exist. -/
structure PipelineState where
  record : DatasetDbRec
  store : List String
deriving Repr, DecidableEq

/-- Outcomes of the fallible steps of one `process_dataset` call. -/
structure DatasetEnv where
  configOk : Bool
  downloadOk : Bool
  prepOk : Bool
  r2Available : Bool
  uploadTrainOk : Bool
  uploadValOk : Bool
  uploadTestOk : Bool
deriving Repr, DecidableEq

/-- Result dictionary of `process_dataset`. -/
structure ProcessOutcome where
  status : String
  error : Option String
deriving Repr, DecidableEq

/-- One object-store upload: on success the key exists afterwards and the
call reports `True`; on failure the store is unchanged. -/
def uploadFile (ok : Bool) (key : String) (store : List String) :
    List String × Bool :=
  if ok then (key :: store, true) else (store, false)

/-- The `except` handler of `process_dataset`: set status `failed` with
the captured error text and return an error dictionary. -/
def datasetFail (st : PipelineState) (msg : String) :
    PipelineState × ProcessOutcome :=
  (⟨⟨"failed", st.record.filePath, some msg⟩, st.store⟩,
    ⟨"error", some msg⟩)

/-- `DatasetProcessingService.process_dataset`.  Status `completed`, the
store path and the counters are persisted only after all three uploads
returned `True`; the three uploads are all attempted (`&=` does not
short-circuit); any exception sets status `failed`. -/
def processDataset (env : DatasetEnv) (datasetId : String)
    (st : PipelineState) : PipelineState × ProcessOutcome :=
  if !env.configOk then
    datasetFail st ("Dataset " ++ datasetId ++ " not found in registry")
  else
    let st1 : PipelineState :=
      ⟨⟨"processing", st.record.filePath, st.record.errorMessage⟩, st.store⟩
    if !env.downloadOk then datasetFail st1 "Kaggle download failed"
    else if !env.prepOk then datasetFail st1 "preprocessing failed"
    else if !env.r2Available then
      datasetFail st1 "R2 storage is not available. Check R2 credentials in environment variables."
    else
      let base := "datasets/" ++ datasetId ++ "/processed"
      let u1 := uploadFile env.uploadTrainOk (base ++ "/train.parquet")
        st1.store
      let u2 := uploadFile env.uploadValOk (base ++ "/val.parquet") u1.1
      let u3 := uploadFile env.uploadTestOk (base ++ "/test.parquet") u2.1
      let st2 : PipelineState := ⟨st1.record, u3.1⟩
      if !(u1.2 && u2.2 && u3.2) then
        datasetFail st2 "Failed to upload one or more files to R2 storage"
      else
        (⟨⟨"completed", some base, st2.record.errorMessage⟩, st2.store⟩,
          ⟨"success", none⟩)

/-- Claim C3: if `process_dataset` leaves the dataset with status
`completed`, then the recorded store path is set and all three split
files exist in the object store under it, and none of the three uploads
failed. -/
theorem C3_completed_implies_splits (env : DatasetEnv) (dsId : String)
    (st : PipelineState)
    (h : (processDataset env dsId st).1.record.status = "completed") :
    (processDataset env dsId st).1.record.filePath
        = some ("datasets/" ++ dsId ++ "/processed") ∧
    ("datasets/" ++ dsId ++ "/processed" ++ "/train.parquet")
        ∈ (processDataset env dsId st).1.store ∧
    ("datasets/" ++ dsId ++ "/processed" ++ "/val.parquet")
        ∈ (processDataset env dsId st).1.store ∧
    ("datasets/" ++ dsId ++ "/processed" ++ "/test.parquet")
        ∈ (processDataset env dsId st).1.store ∧
    env.uploadTrainOk = true ∧ env.uploadValOk = true ∧
    env.uploadTestOk = true := by
  by_cases hcf : env.configOk
  case neg => simp [processDataset, datasetFail, hcf] at h
  by_cases hdl : env.downloadOk
  case neg => simp [processDataset, datasetFail, hcf, hdl] at h
  by_cases hpp : env.prepOk
  case neg => simp [processDataset, datasetFail, hcf, hdl, hpp] at h
  by_cases hr2 : env.r2Available
  case neg => simp [processDataset, datasetFail, hcf, hdl, hpp, hr2] at h
  by_cases hu1 : env.uploadTrainOk
  case neg =>
    simp [processDataset, datasetFail, uploadFile, hcf, hdl, hpp, hr2,
      hu1] at h
  by_cases hu2 : env.uploadValOk
  case neg =>
    simp [processDataset, datasetFail, uploadFile, hcf, hdl, hpp, hr2,
      hu1, hu2] at h
  by_cases hu3 : env.uploadTestOk
  case neg =>
    simp [processDataset, datasetFail, uploadFile, hcf, hdl, hpp, hr2,
      hu1, hu2, hu3] at h
  refine ⟨?_, ?_, ?_, ?_, hu1, hu2, hu3⟩ <;>
    simp [processDataset, uploadFile, hcf, hdl, hpp, hr2, hu1, hu2, hu3]

/-- An all-successful dataset-processing environment. -/
def envDsOk : DatasetEnv :=
  { configOk := true, downloadOk := true, prepOk := true,
    r2Available := true, uploadTrainOk := true, uploadValOk := true,
    uploadTestOk := true }

/-- The initial pipeline state: a pending dataset and an empty store. -/
def initPipelineState : PipelineState :=
  ⟨⟨"pending", none, none⟩, []⟩

/-- Witness for claim C3: the all-successful run ends `completed` and the
theorem yields the three split files in the object store. -/
theorem C3_witness :
    (processDataset envDsOk "ds" initPipelineState).1.record.status
        = "completed" ∧
    ((processDataset envDsOk "ds" initPipelineState).1.record.filePath
        = some ("datasets/" ++ "ds" ++ "/processed") ∧
    ("datasets/" ++ "ds" ++ "/processed" ++ "/train.parquet")
        ∈ (processDataset envDsOk "ds" initPipelineState).1.store ∧
    ("datasets/" ++ "ds" ++ "/processed" ++ "/val.parquet")
        ∈ (processDataset envDsOk "ds" initPipelineState).1.store ∧
    ("datasets/" ++ "ds" ++ "/processed" ++ "/test.parquet")
        ∈ (processDataset envDsOk "ds" initPipelineState).1.store ∧
    envDsOk.uploadTrainOk = true ∧ envDsOk.uploadValOk = true ∧
    envDsOk.uploadTestOk = true) :=
  ⟨rfl, C3_completed_implies_splits envDsOk "ds" initPipelineState rfl⟩

/-! ### ExplanationService.generate_local_explanation (explainer cache)

The claim concerns the per-process explainer cache
`self._explainer_cache`, keyed by the string `modelId_modelType`.  Every
step before the cache access (model lookup, dataset lookup, downloads,
index validation, the prediction on the sample) can raise and then leaves
the cache untouched; the SHAP computation after the cache access can
raise, but the cache mutation has already happened. -/

/-- The two explainer families the service constructs. -/
inductive ExplainerKind
  | tree
  | kernel
deriving Repr, DecidableEq

/-- The model row fields `generate_local_explanation` reads. -/
structure LocalModelMeta where
  modelType : String
deriving Repr, DecidableEq

/-- Outcomes of the fallible steps of one local-explanation call. -/
structure LocalExpEnv where
  model : Option LocalModelMeta
  datasetFound : Bool
  downloadsOk : Bool
  testRows : ℕ
  predictOk : Bool
  shapOk : Bool
deriving Repr, DecidableEq

/-- Which explainer is constructed for a model type
(`TreeExplainer` for xgboost/random_forest, otherwise a
`KernelExplainer` over a fresh background sample). -/
def explainerFor (modelType : String) : ExplainerKind :=
  if modelType = "xgboost" ∨ modelType = "random_forest" then .tree
  else .kernel

/-- The cache key `f"{model_id}_{model['model_type']}"`. -/
def cacheKey (modelId modelType : String) : String :=
  modelId ++ "_" ++ modelType

/-- `generate_local_explanation`, reduced to its effect on the explainer
cache; the boolean is `true` when the call returns normally and `false`
when it re-raises. -/
def generateLocalExplanation (env : LocalExpEnv) (modelId : String)
    (sampleIndex : ℕ) (cache : List (String × ExplainerKind)) :
    List (String × ExplainerKind) × Bool :=
  match env.model with
  | none => (cache, false)
  | some meta =>
    if !env.datasetFound then (cache, false)
    else if !env.downloadsOk then (cache, false)
    else if env.testRows ≤ sampleIndex then (cache, false)
    else if !env.predictOk then (cache, false)
    else
      let key := cacheKey modelId meta.modelType
      let cache1 := if (cache.lookup key).isSome then cache
        else cache ++ [(key, explainerFor meta.modelType)]
      if !env.shapOk then (cache1, false) else (cache1, true)

/-- Environment for the C6 counterexample: a non-tree model family, all
steps succeeding. -/
def envC6 : LocalExpEnv :=
  { model := some ⟨"logistic_regression"⟩, datasetFound := true,
    downloadsOk := true, testRows := 10, predictOk := true,
    shapOk := true }

/-- Claim C6, counterexample: a call that constructs a sampling-strategy
(Kernel) explainer does NOT leave the cache unchanged — starting from an
empty cache for a `logistic_regression` model, the call stores the kernel
explainer under the model's cache key. -/
theorem C6_counterexample :
    explainerFor "logistic_regression" = ExplainerKind.kernel ∧
    (generateLocalExplanation envC6 "m1" 0 []).1
      = [(cacheKey "m1" "logistic_regression", ExplainerKind.kernel)] ∧
    (generateLocalExplanation envC6 "m1" 0 []).1 ≠ [] := by
  refine ⟨?_, ?_, ?_⟩
  · simp [explainerFor]
  · simp [generateLocalExplanation, envC6, cacheKey, explainerFor]
  · simp [generateLocalExplanation, envC6, cacheKey, explainerFor]

/-- Claim C6 (amended): every explainer constructed by
`generate_local_explanation` — the tree strategy for xgboost and
random_forest models AND the kernel (sampling) strategy for every other
family — is inserted into the per-process cache under the key
`(model_id, model_type)`; a call that hits the cache, or fails before the
explainer is constructed, leaves the cache unchanged. -/
theorem C6_amended (env : LocalExpEnv) (modelId : String) (idx : ℕ)
    (cache : List (String × ExplainerKind)) :
    (∀ meta, env.model = some meta → env.datasetFound = true →
      env.downloadsOk = true → idx < env.testRows → env.predictOk = true →
      ((cache.lookup (cacheKey modelId meta.modelType)).isSome →
          (generateLocalExplanation env modelId idx cache).1 = cache) ∧
      ((cache.lookup (cacheKey modelId meta.modelType)).isNone →
          (generateLocalExplanation env modelId idx cache).1
            = cache ++ [(cacheKey modelId meta.modelType,
                explainerFor meta.modelType)])) ∧
    ((env.model = none ∨ env.datasetFound = false ∨
        env.downloadsOk = false ∨ env.testRows ≤ idx ∨
        env.predictOk = false) →
      (generateLocalExplanation env modelId idx cache).1 = cache) ∧
    (∀ mt, (mt = "xgboost" ∨ mt = "random_forest") →
        explainerFor mt = ExplainerKind.tree) ∧
    (∀ mt, ¬ (mt = "xgboost" ∨ mt = "random_forest") →
        explainerFor mt = ExplainerKind.kernel) := by
  refine ⟨?_, ?_, ?_, ?_⟩
  · intro meta hm hds hdl hidx hpred
    constructor
    · intro hhit
      by_cases hshap : env.shapOk <;>
        simp [generateLocalExplanation, hm, hds, hdl, Nat.not_le.mpr hidx,
          hpred, hhit, hshap]
    · intro hmiss
      rw [Option.isNone_iff_eq_none] at hmiss
      by_cases hshap : env.shapOk <;>
        simp [generateLocalExplanation, hm, hds, hdl, Nat.not_le.mpr hidx,
          hpred, hmiss, hshap]
  · intro h
    rcases hm : env.model with - | meta
    · simp [generateLocalExplanation, hm]
    · rcases h with h | h | h | h | h
      · rw [hm] at h; exact Option.noConfusion h
      · simp [generateLocalExplanation, hm, h]
      · by_cases hds : env.datasetFound <;>
          simp [generateLocalExplanation, hm, hds, h]
      · by_cases hds : env.datasetFound <;>
          by_cases hdl : env.downloadsOk <;>
          simp [generateLocalExplanation, hm, hds, hdl, h]
      · by_cases hds : env.datasetFound <;>
          by_cases hdl : env.downloadsOk <;>
          by_cases hidx : env.testRows ≤ idx <;>
          simp [generateLocalExplanation, hm, hds, hdl, hidx, h]
  · intro mt hmt
    simp [explainerFor, hmt]
  · intro mt hmt
    simp [explainerFor, hmt]

/-- Witness for the amended claim C6: a kernel-explainer call on an empty
cache inserts the key, applied through the theorem. -/
theorem C6_amended_witness :
    (envC6.model = some ⟨"logistic_regression"⟩ ∧ envC6.datasetFound = true ∧
      envC6.downloadsOk = true ∧ 0 < envC6.testRows ∧
      envC6.predictOk = true ∧
      (([] : List (String × ExplainerKind)).lookup
          (cacheKey "m1" "logistic_regression")).isNone) ∧
    (generateLocalExplanation envC6 "m1" 0 []).1
      = [] ++ [(cacheKey "m1" "logistic_regression",
          explainerFor "logistic_regression")] :=
  ⟨⟨rfl, rfl, rfl, by decide, rfl, rfl⟩,
    ((C6_amended envC6 "m1" 0 []).1 ⟨"logistic_regression"⟩ rfl rfl rfl
      (by decide) rfl).2 rfl⟩

/-! ### BaseDatasetLoader.split

The split computes `train_end = int(n * train_ratio)` and
`val_end = train_end + int(n * val_ratio)` and slices the shuffled frame;
Python's `int()` truncates toward zero, which for the nonnegative
products here is the floor.  Arithmetic is modelled exactly over ℚ. -/

/-- The three slices `df[:train_end]`, `df[train_end:val_end]`,
`df[val_end:]` of an already-shuffled row list. -/
def splitDf {α : Type} (rTrain rVal : ℚ) (rows : List α) :
    List α × List α × List α :=
  let n := rows.length
  let trainEnd := ⌊(n : ℚ) * rTrain⌋.toNat
  let valEnd := trainEnd + ⌊(n : ℚ) * rVal⌋.toNat
  (rows.take trainEnd, (rows.drop trainEnd).take (valEnd - trainEnd),
    rows.drop valEnd)

/-- `BaseDatasetLoader.split`: shuffle deterministically
(`df.sample(frac=1, random_state=42)`, abstracted to a permutation),
then slice. -/
def split {α : Type} (shuffle : List α → List α) (rTrain rVal : ℚ)
    (df : List α) : List α × List α × List α :=
  splitDf rTrain rVal (shuffle df)

/-- Claim C8: for every table, the train split receives
`floor(n·train_ratio)` rows, the validation split `floor(n·val_ratio)`
rows, and the test split all remaining rows (ratios nonnegative, summing
to at most 1; the shuffle is a permutation). -/
theorem C8_split_counts {α : Type} (shuffle : List α → List α)
    (df : List α) (hshuffle : (shuffle df).Perm df)
    (rTrain rVal : ℚ) (h0t : 0 ≤ rTrain) (h0v : 0 ≤ rVal)
    (hsum : rTrain + rVal ≤ 1) :
    (split shuffle rTrain rVal df).1.length
        = ⌊(df.length : ℚ) * rTrain⌋.toNat ∧
    (split shuffle rTrain rVal df).2.1.length
        = ⌊(df.length : ℚ) * rVal⌋.toNat ∧
    (split shuffle rTrain rVal df).2.2.length
        = df.length - ⌊(df.length : ℚ) * rTrain⌋.toNat
          - ⌊(df.length : ℚ) * rVal⌋.toNat := by
  have hlen : (shuffle df).length = df.length := hshuffle.length_eq
  have hnn : (0 : ℚ) ≤ (df.length : ℚ) := by positivity
  have hT0 : (0 : ℤ) ≤ ⌊(df.length : ℚ) * rTrain⌋ := by
    apply Int.floor_nonneg.mpr
    positivity
  have hV0 : (0 : ℤ) ≤ ⌊(df.length : ℚ) * rVal⌋ := by
    apply Int.floor_nonneg.mpr
    positivity
  have hTV : ⌊(df.length : ℚ) * rTrain⌋
      + ⌊(df.length : ℚ) * rVal⌋ ≤ (df.length : ℤ) := by
    have h1 : ((⌊(df.length : ℚ) * rTrain⌋
        + ⌊(df.length : ℚ) * rVal⌋ : ℤ) : ℚ)
        ≤ (df.length : ℚ) * rTrain + (df.length : ℚ) * rVal := by
      push_cast
      exact add_le_add (Int.floor_le _) (Int.floor_le _)
    have h2 : (df.length : ℚ) * rTrain + (df.length : ℚ) * rVal
        ≤ (df.length : ℚ) := by
      calc (df.length : ℚ) * rTrain + (df.length : ℚ) * rVal
          = (df.length : ℚ) * (rTrain + rVal) := by ring
        _ ≤ (df.length : ℚ) * 1 := mul_le_mul_of_nonneg_left hsum hnn
        _ = (df.length : ℚ) := by ring
    exact_mod_cast le_trans h1 h2
  have htn : (⌊(df.length : ℚ) * rTrain⌋.toNat : ℤ)
      = ⌊(df.length : ℚ) * rTrain⌋ := Int.toNat_of_nonneg hT0
  have hvn : (⌊(df.length : ℚ) * rVal⌋.toNat : ℤ)
      = ⌊(df.length : ℚ) * rVal⌋ := Int.toNat_of_nonneg hV0
  have htv : ⌊(df.length : ℚ) * rTrain⌋.toNat
      + ⌊(df.length : ℚ) * rVal⌋.toNat ≤ df.length := by omega
  refine ⟨?_, ?_, ?_⟩
  · simp only [split, splitDf, hlen, List.length_take]
    omega
  · simp only [split, splitDf, hlen, List.length_take, List.length_drop]
    omega
  · simp only [split, splitDf, hlen, List.length_drop]
    omega

set_option maxRecDepth 4000 in
/-- Witness for claim C8, the spec's 1,000-row scenario: ratios
0.7/0.15/0.15 produce the split 700/150/150. -/
theorem C8_witness :
    ((List.range 1000).Perm (List.range 1000) ∧ (0 : ℚ) ≤ 7/10 ∧
      (0 : ℚ) ≤ 3/20 ∧ (7/10 : ℚ) + 3/20 ≤ 1) ∧
    (split id (7/10) (3/20) (List.range 1000)).1.length = 700 ∧
    (split id (7/10) (3/20) (List.range 1000)).2.1.length = 150 ∧
    (split id (7/10) (3/20) (List.range 1000)).2.2.length = 150 := by
  have h := C8_split_counts id (List.range 1000) (List.Perm.refl _)
    (7/10) (3/20) (by norm_num) (by norm_num) (by norm_num)
  have hf1 : (⌊(((List.range 1000).length : ℚ)) * (7/10)⌋).toNat
      = 700 := by
    norm_num [List.length_range]
    decide
  have hf2 : (⌊(((List.range 1000).length : ℚ)) * (3/20)⌋).toNat
      = 150 := by
    norm_num [List.length_range]
    decide
  refine ⟨⟨List.Perm.refl _, by norm_num, by norm_num, by norm_num⟩,
    ?_, ?_, ?_⟩
  · rw [h.1, hf1]
  · rw [h.2.1, hf2]
  · rw [h.2.2, hf1, hf2]
    simp [List.length_range]

/-! ### ExplanationService.generate_explanation (global explanations)

Only the control flow around the sample clamp and the persisted record
matter to the claim: the SHAP/LIME library work inside `_generate_shap` /
`_generate_lime` is abstracted to a success flag.  The `method` argument
is taken already lower-cased (the source compares `method.lower()`). -/

/-- The model row fields `generate_explanation` reads. -/
structure GenModelMeta where
  status : String
  modelType : String
deriving Repr, DecidableEq

/-- Outcomes of the fallible steps of one global-explanation call. -/
structure GenEnv where
  model : Option GenModelMeta
  datasetFound : Bool
  downloadsOk : Bool
  testRows : ℕ
  attributionOk : Bool
deriving Repr, DecidableEq

/-- An explanation row as persisted by `generate_explanation` (the failed
rows saved by the `except` handler carry no sample size). -/
structure ExplanationRec where
  modelId : String
  method : String
  status : String
  sampleSize : Option ℕ
  errorMessage : Option String
deriving Repr, DecidableEq

/-- `generate_explanation`, tracking the explanation rows.  The boolean is
`true` when the call returns its success dictionary and `false` when it
re-raises (after persisting a `failed` row).  The clamp is the branch
`if len(test_df) > sample_size: test_df = test_df.sample(n=sample_size)`;
the persisted `sample_size` is `len(X_test)`, the row count after the
clamp (dropping the label column leaves the row count unchanged). -/
def generateExplanation (env : GenEnv) (modelId method : String)
    (sampleSize : ℕ) (db : List ExplanationRec) :
    List ExplanationRec × Bool :=
  match env.model with
  | none =>
    (db ++ [⟨modelId, method, "failed", none,
      some ("Model " ++ modelId ++ " not found")⟩], false)
  | some meta =>
    if meta.status = "completed" then
      if !env.datasetFound then
        (db ++ [⟨modelId, method, "failed", none,
          some "Dataset not found"⟩], false)
      else if !env.downloadsOk then
        (db ++ [⟨modelId, method, "failed", none,
          some "failed to load test data"⟩], false)
      else
        let used := if sampleSize < env.testRows then sampleSize
          else env.testRows
        if method = "shap" ∨ method = "lime" then
          if !env.attributionOk then
            (db ++ [⟨modelId, method, "failed", none,
              some "attribution computation failed"⟩], false)
          else
            (db ++ [⟨modelId, method, "completed", some used, none⟩],
              true)
        else
          (db ++ [⟨modelId, method, "failed", none,
            some ("Unsupported method: " ++ method)⟩], false)
    else
      (db ++ [⟨modelId, method, "failed", none,
        some ("Model " ++ modelId ++ " is not completed")⟩], false)

/-- Claim C9: when the requested `sample_size` exceeds the number of rows
of the test split, the engine clamps the evaluation sample to the full
split instead of erroring, and the persisted record is a `completed`
explanation whose recorded `sample_size` equals the clamped row count. -/
theorem C9_sample_clamp (env : GenEnv) (modelId method : String)
    (sampleSize : ℕ) (db : List ExplanationRec) (meta : GenModelMeta)
    (hm : env.model = some meta) (hst : meta.status = "completed")
    (hds : env.datasetFound = true) (hdl : env.downloadsOk = true)
    (hmethod : method = "shap" ∨ method = "lime")
    (hattr : env.attributionOk = true)
    (hclamp : env.testRows < sampleSize) :
    generateExplanation env modelId method sampleSize db
      = (db ++ [⟨modelId, method, "completed", some env.testRows, none⟩],
        true) := by
  have hnotlt : ¬ sampleSize < env.testRows := by omega
  simp [generateExplanation, hm, hst, hds, hdl, hmethod, hattr, hnotlt]

/-- Environment for the C9 witness: a 50-row test split. -/
def envC9 : GenEnv :=
  { model := some ⟨"completed", "xgboost"⟩, datasetFound := true,
    downloadsOk := true, testRows := 50, attributionOk := true }

/-- Witness for claim C9, the spec's scenario: `sample_size=100` on a
50-row test split records a completed explanation with sample size 50. -/
theorem C9_witness :
    (envC9.model = some ⟨"completed", "xgboost"⟩ ∧
      (⟨"completed", "xgboost"⟩ : GenModelMeta).status = "completed" ∧
      envC9.datasetFound = true ∧ envC9.downloadsOk = true ∧
      ("shap" = "shap" ∨ "shap" = "lime") ∧ envC9.attributionOk = true ∧
      envC9.testRows < 100) ∧
    generateExplanation envC9 "m1" "shap" 100 []
      = ([⟨"m1", "shap", "completed", some envC9.testRows, none⟩], true) :=
  ⟨⟨rfl, rfl, rfl, rfl, Or.inl rfl, rfl, by decide⟩, by
    have h := C9_sample_clamp envC9 "m1" "shap" 100 []
      ⟨"completed", "xgboost"⟩ rfl rfl rfl rfl (Or.inl rfl) rfl
      (by decide)
    simpa using h⟩
